import Mathlib

/-!
# Verification of the libp8020 instrument pipeline

Shallow embedding of the libp8020 sources (wire protocol codec,
test-config parser and validator, device-properties collector,
multi-device synchroniser, and the test orchestrator) together with
proofs about the embedded definitions.

Modelling conventions:

* Rust `&str` values on the wire are modelled as `List Char` (a Rust
  string slice is exactly a sequence of Unicode scalar values).  Byte
  slicing such as `&command[1..]`, which panics when the index is not a
  UTF-8 character boundary, is modelled by `dropBytes`, which returns
  `none` exactly when the Rust expression would panic.
* Rust `f64` is modelled by `ℚ`.  Every claim proved below only
  involves values and operations on which binary floating point and
  exact rational arithmetic agree (small integer sample counts, exact
  sums, divisions and order comparisons away from rounding boundaries).
  `f64::from_str` is modelled as an exact decimal-string parser; the
  special forms `inf`/`infinity`/`nan` are folded into the error case,
  which no theorem below depends on.  Division by zero (`NaN` in Rust)
  does not arise in any modelled execution.
* Machine integers (`u8`, `u16`, `u64`, `usize`) are modelled as `ℕ`;
  `from_str` overflow checks carry the explicit bounds `2^8`, `2^16`,
  `2^64`, and counter increments that may wrap reduce modulo `2^64`.
* Rust functions that can panic (slice indexing, `unwrap`, `assert!`)
  are embedded in `Option`, with `none` marking the panic.
-/

/- The Batteries `Rat` arithmetic operations are `@[irreducible]` by
default, which blocks `decide`-style evaluation of the embedded
functions on concrete inputs; restore the ordinary reducibility for
this file (the kernel ignores reducibility attributes, so proofs are
unaffected). -/
attribute [local semireducible] Rat.mul Rat.inv Rat.add Rat.sub Rat.ofScientific

namespace P8020

abbrev Str := List Char

/-! ## Wire protocol data model (src/protocol.rs) -/

/-- Indicator from src/protocol.rs: seven independent booleans. -/
structure Indicator where
  in_progress : Bool
  fit_factor : Bool
  service : Bool
  low_particle : Bool
  low_battery : Bool
  fail : Bool
  pass : Bool
deriving DecidableEq

/-- `Indicator::empty()` / `EMPTY_INDICATOR`. -/
def Indicator.empty : Indicator :=
  ⟨false, false, false, false, false, false, false⟩

/-- Command from src/protocol.rs.  `Beep.duration_deciseconds` is a `u8`
and `DisplayExercise`'s payload a `u8`, both modelled as `ℕ`;
`DisplayConcentration`'s `f64` payload is modelled as `ℚ`. -/
inductive Command where
  | enterExternalControl
  | exitExternalControl
  | beep (durationDeciseconds : ℕ)
  | valveAmbient
  | valveSpecimen
  | displayExercise (exercise : ℕ)
  | displayConcentration (value : ℚ)
  | indicator (ind : Indicator)
  | clearDisplay
  | requestSettings
deriving DecidableEq

/-- `InvalidCommandError` from src/protocol.rs; the `Range<usize>` is
modelled by its `start` and `end` fields. -/
inductive InvalidCommandError where
  | outOfRange (command : Command) (allowedStart allowedEnd : ℕ)
deriving DecidableEq

/-! ### Decimal formatting helpers (semantics of the Rust `format!`
specifiers used by `Command::to_wire`). -/

/-- Decimal digits of `n`, most significant first (fuel-based so that it
reduces in the kernel). -/
def natDigitsAux : ℕ → ℕ → List Char
  | 0, _ => []
  | fuel + 1, n =>
    if n < 10 then [Nat.digitChar n]
    else natDigitsAux fuel (n / 10) ++ [Nat.digitChar (n % 10)]

def natDigits (n : ℕ) : List Char := natDigitsAux (n + 1) n

/-- Left-pad with `'0'` to width `w` (the `0w` in a Rust format spec). -/
def padZeros (w : ℕ) (s : Str) : Str := List.replicate (w - s.length) '0' ++ s

/-- `format!("{n:0w}")` for a non-negative integer `n`. -/
def natWire (w : ℕ) (n : ℕ) : Str := padZeros w (natDigits n)

/-- Round to the nearest integer, ties to even: the rounding Rust's
float formatting applies to the (exact) value when a precision is
requested. -/
def roundHalfEven (q : ℚ) : ℤ :=
  if q - ⌊q⌋ < 1/2 then ⌊q⌋
  else if 1/2 < q - ⌊q⌋ then ⌊q⌋ + 1
  else if ⌊q⌋ % 2 = 0 then ⌊q⌋ else ⌊q⌋ + 1

/-- `f64::round`: round to the nearest integer, ties away from zero. -/
def rustRound (q : ℚ) : ℤ :=
  if q < 0 then -⌊-q + 1/2⌋ else ⌊q + 1/2⌋

/-- `format!("{q:09.2}")`: two decimal places, sign-aware zero padding
to a total width of nine characters. -/
def fmtFixed2Width9 (q : ℚ) : Str :=
  let c := roundHalfEven (q * 100)
  if c < 0 then
    '-' :: padZeros 8
      (natDigits ((-c).toNat / 100) ++ '.' :: natWire 2 ((-c).toNat % 100))
  else
    padZeros 9 (natDigits (c.toNat / 100) ++ '.' :: natWire 2 (c.toNat % 100))

/-- `Command::to_wire` from src/protocol.rs.  The `as usize` cast of the
rounded concentration saturates at zero for negative values, which
`Int.toNat` reproduces. -/
def Command.toWire : Command → Except InvalidCommandError Str
  | .enterExternalControl => .ok "J".toList
  | .exitExternalControl => .ok "G".toList
  | .beep d =>
    if 1 ≤ d ∧ d ≤ 60 then .ok ('B' :: natWire 2 d)
    else .error (.outOfRange (.beep d) 1 61)
  | .valveAmbient => .ok "VN".toList
  | .valveSpecimen => .ok "VF".toList
  | .displayExercise e =>
    if e ≤ 19 then .ok ('N' :: natWire 2 e)
    else .error (.outOfRange (.displayExercise e) 0 20)
  | .displayConcentration v =>
    if v < 100 then .ok ('D' :: fmtFixed2Width9 v)
    else
      let value := (rustRound v).toNat
      if value > 999999999 then
        .error (.outOfRange (.displayConcentration v) 0 999999999)
      else .ok ('D' :: natWire 9 value)
  | .indicator i =>
    .ok ('I' :: '0' ::
      (if i.in_progress then '1' else '0') ::
      (if i.fit_factor then '1' else '0') ::
      (if i.service then '1' else '0') ::
      (if i.low_particle then '1' else '0') ::
      (if i.low_battery then '1' else '0') ::
      (if i.fail then '1' else '0') ::
      (if i.pass then '1' else '0') :: [])
  | .clearDisplay => .ok "K".toList
  | .requestSettings => .ok "S".toList

/-! ### Inbound message model -/

/-- `SettingMessage` from src/protocol.rs.  All `usize` fields are `ℕ`;
`month`/`year` are `u8` values, also `ℕ`. -/
inductive SettingMessage where
  | ambientPurgeTime (seconds : ℕ)
  | ambientSampleTime (seconds : ℕ)
  | maskSamplePurgeTime (seconds : ℕ)
  | maskSampleTime (ex seconds : ℕ)
  | fitFactorPassLevel (ex fitFactor : ℕ)
  | serialNumber (serial : Str)
  | runTimeSinceService (decaminutes : ℕ)
  | dateLastServiced (month year : ℕ)
deriving DecidableEq

/-- `Message` from src/protocol.rs. -/
inductive Message where
  | response (c : Command)
  | errorResponse (c : Command)
  | unknownError (text : Str)
  | sample (value : ℚ)
  | setting (s : SettingMessage)
deriving DecidableEq

/-- `ParseError` from src/protocol.rs.  Note: the Rust `PartialEq`
instance compares `received_message` only; no theorem below depends on
`ParseError` equality, so the structural equality derived here is
harmless. -/
structure ParseError where
  receivedMessage : Str
  reason : String
deriving DecidableEq

deriving instance DecidableEq for Except

/-! ### String primitives used by the parsers -/

/-- `str::starts_with` for a literal. -/
def startsWith : Str → Str → Bool
  | _, [] => true
  | [], _ :: _ => false
  | c :: s, p :: ps => c = p && startsWith s ps

/-- `str::strip_prefix`. -/
def stripPre : Str → Str → Option Str
  | s, [] => some s
  | [], _ :: _ => none
  | c :: s, p :: ps => if c = p then stripPre s ps else none

/-- Byte-based slicing `&s[n..]`: `none` exactly when `n` is not a
UTF-8 character boundary of `s` (the Rust expression panics there). -/
def dropBytes (s : Str) (n : ℕ) : Option Str :=
  if n = 0 then some s
  else
    match s with
    | [] => none
    | c :: rest => if c.utf8Size ≤ n then dropBytes rest (n - c.utf8Size) else none

/-- Code points with the Unicode `White_Space` property, as removed by
`str::trim`. -/
def isRustWhitespace (c : Char) : Bool :=
  c.toNat ∈ [0x09, 0x0A, 0x0B, 0x0C, 0x0D, 0x20, 0x85, 0xA0, 0x1680,
    0x2000, 0x2001, 0x2002, 0x2003, 0x2004, 0x2005, 0x2006, 0x2007,
    0x2008, 0x2009, 0x200A, 0x2028, 0x2029, 0x202F, 0x205F, 0x3000]

/-- `str::trim`. -/
def trim (s : Str) : Str :=
  ((s.dropWhile isRustWhitespace).reverse.dropWhile isRustWhitespace).reverse

def isAsciiDigit (c : Char) : Bool := '0' ≤ c && c ≤ '9'

def digitVal (c : Char) : ℕ := c.toNat - '0'.toNat

/-- Digit-folding core of Rust's unsigned `from_str`: all characters
must be ASCII digits and the running value must stay below `bound`
(overflow is an error in Rust). -/
def parseDigitsAcc (bound : ℕ) : ℕ → Str → Option ℕ
  | acc, [] => some acc
  | acc, c :: rest =>
    if isAsciiDigit c then
      let v := acc * 10 + digitVal c
      if v < bound then parseDigitsAcc bound v rest else none
    else none

/-- Rust `uN::from_str`: an optional leading `'+'`, then at least one
digit, value `< bound`. -/
def natFromStr (bound : ℕ) (s : Str) : Option ℕ :=
  match s with
  | [] => none
  | '+' :: rest =>
    match rest with
    | [] => none
    | _ :: _ => parseDigitsAcc bound 0 rest
  | _ :: _ => parseDigitsAcc bound 0 s

def digitsVal : ℕ → Str → ℕ
  | acc, [] => acc
  | acc, c :: rest => digitsVal (acc * 10 + digitVal c) rest

/-- `f64::from_str`, modelled exactly over `ℚ`: optional sign, a
mantissa `digits [ '.' [digits] ]` or `'.' digits` with at least one
digit, and an optional exponent `('e'|'E') [sign] digits`.  The special
forms `inf`/`infinity`/`nan` are folded into the error case (see the
file header). -/
def f64FromStr (s : Str) : Option ℚ :=
  let signAndRest : Bool × Str :=
    match s with
    | '-' :: r => (true, r)
    | '+' :: r => (false, r)
    | _ => (false, s)
  let neg := signAndRest.1
  let s1 := signAndRest.2
  let intDs := s1.takeWhile isAsciiDigit
  let r1 := s1.dropWhile isAsciiDigit
  let fracAndRest : Str × Str :=
    match r1 with
    | '.' :: r => (r.takeWhile isAsciiDigit, r.dropWhile isAsciiDigit)
    | _ => ([], r1)
  let fracDs := fracAndRest.1
  let r2 := fracAndRest.2
  if intDs = [] ∧ fracDs = [] then none
  else
    let mant : ℚ :=
      ((digitsVal 0 intDs * 10 ^ fracDs.length + digitsVal 0 fracDs : ℕ) : ℚ) /
        (10 ^ fracDs.length : ℕ)
    let mant := if neg then -mant else mant
    match r2 with
    | [] => some mant
    | e :: rest =>
      if e = 'e' ∨ e = 'E' then
        let expSignAndRest : Bool × Str :=
          match rest with
          | '-' :: r => (true, r)
          | '+' :: r => (false, r)
          | _ => (false, rest)
        let eds := expSignAndRest.2
        if eds ≠ [] ∧ eds.all isAsciiDigit then
          let ex := digitsVal 0 eds
          some (if expSignAndRest.1 then mant / 10 ^ ex else mant * 10 ^ ex)
        else none
      else none

/-! ### Parsers (src/protocol.rs) -/

/-- `parse_command`.  The outer `Option` marks Rust panics: `none` can
only stem from an out-of-boundary byte slice in `dropBytes` (which the
ASCII prefix guards in fact rule out; see `parseCommand_total`). -/
def parseCommand (command : Str) : Option (Except ParseError Command) :=
  if command = "VN".toList then some (.ok .valveAmbient)
  else if command = "VF".toList ∨ command = "VO".toList then
    -- The vendor spec claims "VO"; real devices return "VF"; both parse.
    some (.ok .valveSpecimen)
  else if command = "OK".toList then some (.ok .enterExternalControl)
  else if command = "G".toList then some (.ok .exitExternalControl)
  else if command = "K".toList then some (.ok .clearDisplay)
  else if startsWith command "B".toList then
    match dropBytes command 1 with
    | none => none
    | some body =>
      some (match natFromStr (2 ^ 8) body with
        | some duration => .ok (.beep duration)
        | none => .error ⟨command, "unable to parse beep duration"⟩)
  else if startsWith command "N".toList then
    match dropBytes command 1 with
    | none => none
    | some body =>
      some (match natFromStr (2 ^ 8) body with
        | some exercise => .ok (.displayExercise exercise)
        | none => .error ⟨command, "unable to parse exercise number"⟩)
  else if startsWith command "D".toList then
    match dropBytes command 1 with
    | none => none
    | some body =>
      some (match f64FromStr body with
        | some value => .ok (.displayConcentration value)
        | none =>
          .error ⟨command, "unable to parse display-concentration command"⟩)
  else if startsWith command "I".toList then
    if command.length ≠ 9 then
      some (.error ⟨command, "unable to parse indicator with unexpected length"⟩)
    else
      -- chars(): skip 'I' and the unused flag, then seven flags, each
      -- true exactly when the character is '1'.
      some (.ok (.indicator
        { in_progress := command.get? 2 = some '1'
          fit_factor := command.get? 3 = some '1'
          service := command.get? 4 = some '1'
          low_particle := command.get? 5 = some '1'
          low_battery := command.get? 6 = some '1'
          fail := command.get? 7 = some '1'
          pass := command.get? 8 = some '1' }))
  else some (.error ⟨command, "unknown or unsupported command"⟩)

/-- `parse_setting`.  `none` marks the `strip_prefix(..).unwrap()`
panics, which the `starts_with` guards rule out
(see `parseSetting_total`). -/
def parseSetting (setting : Str) : Option (Except ParseError SettingMessage) :=
  if startsWith setting "STPA".toList then
    match stripPre setting "STPA".toList with
    | none => none
    | some v =>
      some (match natFromStr (2 ^ 64) (trim v) with
        | some seconds => .ok (.ambientPurgeTime seconds)
        | none => .error ⟨setting, "unable to parse ambient purge time"⟩)
  else if startsWith setting "STA".toList then
    match stripPre setting "STA".toList with
    | none => none
    | some v =>
      some (match natFromStr (2 ^ 64) (trim v) with
        | some seconds => .ok (.ambientSampleTime seconds)
        | none => .error ⟨setting, "unable to parse ambient sample time"⟩)
  else if startsWith setting "STPM".toList then
    match stripPre setting "STPM".toList with
    | none => none
    | some v =>
      some (match natFromStr (2 ^ 64) (trim v) with
        | some seconds => .ok (.maskSamplePurgeTime seconds)
        | none => .error ⟨setting, "unable to parse mask sample purge time"⟩)
  else if startsWith setting "STM".toList then
    match stripPre setting "STM".toList with
    | none => none
    | some v0 =>
      -- "STMxx000vv": two characters of exercise index, then the value.
      -- `char_indices().nth(2)` is guarded by `chars().count() > 2`, so
      -- the split is at the byte boundary after two characters; in the
      -- character-list model this is `take 2` / `drop 2`.
      let value := trim v0
      some (if 2 < value.length then
        match natFromStr (2 ^ 64) (value.take 2) with
        | some ex =>
          match natFromStr (2 ^ 64) (value.drop 2) with
          | some seconds => .ok (.maskSampleTime ex seconds)
          | none => .error ⟨setting, "unable to parse mask sample time"⟩
        | none => .error ⟨setting, "unable to parse mask sample time"⟩
      else .error ⟨setting, "unable to parse mask sample time"⟩)
  else if startsWith setting "SP".toList then
    match stripPre setting "SP".toList with
    | none => none
    | some v0 =>
      let value := trim v0
      some (if 2 < value.length then
        match natFromStr (2 ^ 64) (value.take 2) with
        | some ex =>
          match natFromStr (2 ^ 64) (value.drop 2) with
          | some ff => .ok (.fitFactorPassLevel ex ff)
          | none => .error ⟨setting, "unable to parse fit factor pass level"⟩
        | none => .error ⟨setting, "unable to parse fit factor pass level"⟩
      else .error ⟨setting, "unable to parse fit factor pass level"⟩)
  else if startsWith setting "SS".toList then
    match stripPre setting "SS".toList with
    | none => none
    | some v => some (.ok (.serialNumber (trim v)))
  else if startsWith setting "SR".toList then
    match stripPre setting "SR".toList with
    | none => none
    | some v =>
      some (match natFromStr (2 ^ 64) (trim v) with
        | some deca => .ok (.runTimeSinceService deca)
        | none =>
          .error ⟨setting, "unable to parse run time since last service"⟩)
  else if startsWith setting "SD".toList then
    match stripPre setting "SD".toList with
    | none => none
    | some v =>
      some (match natFromStr (2 ^ 64) (trim v) with
        | some n =>
          if n > 9999 ∨ n / 100 > 12 then
            .error ⟨setting, "unable to parse date last serviced"⟩
          else .ok (.dateLastServiced (n / 100) (n % 100))
        | none => .error ⟨setting, "unable to parse date last serviced"⟩)
  else some (.error ⟨setting, "unknown or unsupported command"⟩)

/-- `parse_message`.  `none` marks a Rust panic inside one of the
sub-parsers. -/
def parseMessage (message : Str) : Option (Except ParseError Message) :=
  if message = [] then
    some (.error ⟨message, "received empty message"⟩)
  else if isAsciiDigit (message.headD 'x') then
    some (match f64FromStr message with
      | some v => .ok (.sample v)
      | none => .error ⟨message, "unable to parse sample"⟩)
  else if startsWith message "E".toList then
    some (.ok (.unknownError ("Error parsing not yet implemented: ".toList ++ message)))
  else if startsWith message "S".toList then
    match parseSetting message with
    | none => none
    | some (.ok sm) => some (.ok (.setting sm))
    | some (.error e) => some (.error ⟨message, e.reason⟩)
  else
    match parseCommand message with
    | none => none
    | some (.ok c) => some (.ok (.response c))
    | some (.error e) => some (.error ⟨message, e.reason⟩)

/-! ## Test configurations (src/test_config/mod.rs)

The claims reference `src/test_config/mod.rs` (the variant with
`StageCounts` and the quote-aware tokeniser), which is embedded here. -/

/-- `StageCounts`: both fields are `usize` in the source. -/
structure StageCounts where
  purge_count : ℕ
  sample_count : ℕ
deriving DecidableEq

/-- `TestStage` from src/test_config/mod.rs. -/
inductive TestStage where
  | ambientSample (counts : StageCounts)
  | exercise (name : Str) (counts : StageCounts)
deriving DecidableEq

def TestStage.is_ambient_sample : TestStage → Bool
  | .ambientSample _ => true
  | .exercise _ _ => false

def TestStage.counts : TestStage → StageCounts
  | .ambientSample c => c
  | .exercise _ c => c

/-- `TestConfig`: `name` receives the second CSV column of the `TEST`
header (the id, per the spec's `TEST, id, display_name` layout) and
`short_name` the third (the display name). -/
structure TestConfig where
  name : Str
  short_name : Str
  stages : List TestStage
deriving DecidableEq

inductive ValidationError where
  | invalidConfig
deriving DecidableEq

/-- `ParseError` from src/test_config/mod.rs (string payloads are
modelled as `Str`; the `IoError` case cannot arise for the in-memory
line lists used here but is kept for shape). -/
inductive ConfigParseError where
  | ioError (msg : Str)
  | invalidExerciseStage (msg : Str)
  | invalidAmbientStage (msg : Str)
  | invalidTestHeader (msg : Str)
  | other (msg : Str)
deriving DecidableEq

def MSG_BAD_LEADING_QUOTATION : Str :=
  "Quotation marks must occur immediately after token separator ('foo,\"bar\"' is OK, 'foo, \"bar\"' and 'foo,b\"bar\" are not).".toList

def MSG_BAD_TRAILING_QUOTATION : Str :=
  "Separator must occur immediately after close of quotation marks ('\"foo\",...' is OK, '\"foo\" ,...' and '\"foo\"bar,' are not)".toList

def MSG_UNCLOSED_QUOTATION : Str := "All quotations must be closed".toList

def MSG_UNQUOTED_HASH : Str :=
  "Raw hash symbols (#) are not allowed inline, enclose the token (cell) in quotes if necessary, e.g. \"#ok\" or \"also #ok\"".toList

/-- The loop of `tokenise_line`: `inQuote` is the `LineState`, `acc` the
completed tokens and `cur` the token under construction (the Rust code
mutates the last element of `out`; here `out = acc ++ [cur]`).  In the
close-quote-then-comma case the comma is only peeked, so the recursive
call passes the unconsumed rest. -/
def tokeniseLoop : List Char → Bool → List Str → Str → Except ConfigParseError (List Str)
  | [], inQuote, acc, cur =>
    if inQuote then .error (.other MSG_UNCLOSED_QUOTATION)
    else .ok (acc ++ [cur])
  | ',' :: rest, false, acc, cur => tokeniseLoop rest false (acc ++ [cur]) []
  | ',' :: rest, true, acc, cur => tokeniseLoop rest true acc (cur ++ [','])
  | '"' :: rest, false, acc, cur =>
    if cur.length > 0 then .error (.other MSG_BAD_LEADING_QUOTATION)
    else tokeniseLoop rest true acc cur
  | '"' :: rest, true, acc, cur =>
    match rest with
    | [] =>
      -- peek = None: state becomes Normal and the loop breaks.
      .ok (acc ++ [cur])
    | c :: rest2 =>
      if c = '"' then tokeniseLoop rest2 true acc (cur ++ ['"'])
      else if c = ',' then
        -- The comma is only peeked; the next loop iteration consumes it
        -- in the Normal state and starts a fresh token.  That iteration
        -- is inlined here so the recursion stays structural.
        tokeniseLoop rest2 false (acc ++ [cur]) []
      else .error (.other MSG_BAD_TRAILING_QUOTATION)
  | '#' :: _, false, _, _ => .error (.other MSG_UNQUOTED_HASH)
  | '#' :: rest, true, acc, cur => tokeniseLoop rest true acc (cur ++ ['#'])
  | c :: rest, inQuote, acc, cur => tokeniseLoop rest inQuote acc (cur ++ [c])

/-- `tokenise_line` from src/test_config/mod.rs. -/
def tokeniseLine (line : Str) : Except ConfigParseError (List Str) :=
  match line with
  | '#' :: _ => .ok [line]
  | _ => tokeniseLoop line false [] []

/-- The `for stage in stages` loop of `TestConfig::validate`, with
`prev` the `previous_stage` variable. -/
def validateLoop : Option TestStage → List TestStage → Except ValidationError Unit
  | _, [] => .ok ()
  | prev, stage :: rest =>
    if ((match prev with
        | some p => p.is_ambient_sample
        | none => false) && stage.is_ambient_sample) = true then
      .error .invalidConfig
    else if stage.counts.sample_count < 1 then .error .invalidConfig
    else validateLoop (some stage) rest

/-- `TestConfig::validate` from src/test_config/mod.rs.  The
`first().unwrap()`/`last().unwrap()` calls cannot panic because the
length check precedes them; the impossible branch is mapped to the same
error for totality. -/
def TestConfig.validate (cfg : TestConfig) : Except ValidationError Unit :=
  if cfg.stages.length < 3 then .error .invalidConfig
  else
    match cfg.stages.head?, cfg.stages.getLast? with
    | some first, some last =>
      if !first.is_ambient_sample || !last.is_ambient_sample then
        .error .invalidConfig
      else validateLoop none cfg.stages
    | _, _ => .error .invalidConfig

/-- The line loop of `TestConfig::parse_from_csv`.  The byte stream is
modelled as the list of its lines (`read_line` yields one line per
iteration; the code `trim`s each line, which also removes the line
terminator).  `cols[i]` indexing is guarded by the length checks in the
source; `tokenise_line` always returns at least one token, so `cols[0]`
cannot panic. -/
def parseLines :
    List Str → List TestStage → Option (Str × Str) →
      Except ConfigParseError TestConfig
  | [], stages, header =>
    match header with
    | none => .error (.invalidTestHeader "test header (TEST line) not found".toList)
    | some (name, shortName) => .ok ⟨name, shortName, stages⟩
  | line :: rest, stages, header =>
    let data := trim line
    if data.length = 0 then parseLines rest stages header
    else if data.headD ' ' = '#' then parseLines rest stages header
    else
      match tokeniseLine data with
      | .error e => .error e
      | .ok cols =>
        if cols.headD [] = "TEST".toList then
          if cols.length < 3 then
            .error (.invalidTestHeader "test header (TEST line) must contain >= 3 fields".toList)
          else parseLines rest stages (some (cols.getD 1 [], cols.getD 2 []))
        else if cols.headD [] = "AMBIENT".toList then
          if cols.length < 3 then
            .error (.invalidAmbientStage "ambient stage must contain >= 3 fields".toList)
          else
            match natFromStr (2 ^ 8) (cols.getD 1 []) with
            | none =>
              .error (.invalidAmbientStage "ambient stage purge count must be an integer between 0 and 255".toList)
            | some purgeCount =>
              match natFromStr (2 ^ 16) (cols.getD 2 []) with
              | none =>
                .error (.invalidAmbientStage "ambient stage purge count must be an integer between 0 and {u16::MAX}".toList)
              | some sampleCount =>
                parseLines rest
                  (stages ++ [.ambientSample ⟨purgeCount, sampleCount⟩]) header
        else if cols.headD [] = "EXERCISE".toList then
          if cols.length < 4 then
            .error (.invalidExerciseStage "exercise stage must contain >= 4 fields".toList)
          else
            match natFromStr (2 ^ 8) (cols.getD 1 []) with
            | none =>
              .error (.invalidExerciseStage "exercise stage purge count must be an integer between 0 and 255".toList)
            | some purgeCount =>
              match natFromStr (2 ^ 16) (cols.getD 2 []) with
              | none =>
                .error (.invalidExerciseStage "exercise stage purge count must be an integer between 0 and {u16::MAX}".toList)
              | some sampleCount =>
                parseLines rest
                  (stages ++ [.exercise
                    (if (cols.getD 3 []).length > 0 then cols.getD 3 []
                     else "<no name>".toList)
                    ⟨purgeCount, sampleCount⟩]) header
        else
          .error (.other ("unsupported stage/command: ".toList ++ cols.headD []))

/-- `TestConfig::parse_from_csv`, over the line list of the stream. -/
def TestConfig.parseFromCsv (lines : List Str) : Except ConfigParseError TestConfig :=
  parseLines lines [] none

/-! ## Multi-device synchroniser (src/multidev.rs)

`Synchroniser.counters` is a vector of `AtomicU64`; the sequential
semantics of one `try_step` call (no interleaved concurrent calls) is
embedded on a plain list of counter values. -/

inductive StepDirective where
  | proceed
  | skip
deriving DecidableEq

/-- `Synchroniser::new`: all counters zero. -/
def synchroniserNew (deviceCount : ℕ) : List ℕ := List.replicate deviceCount 0

/-- `DeviceSynchroniser::try_step`: fold the minimum over all counters
starting from `u64::MAX`, then increment this device's counter iff its
value is ≤ that minimum.  A `DeviceSynchroniser` only exists for a
leased, in-range `device_id`, so the index cannot panic; the
out-of-range case is mapped to `none`.  The increment is the `u64`
`x + 1` of the `fetch_update` closure, reduced modulo `2^64`. -/
def tryStep (counters : List ℕ) (deviceId : ℕ) : Option (StepDirective × List ℕ) :=
  match counters.get? deviceId with
  | none => none
  | some x =>
    let m := counters.foldl Nat.min (2 ^ 64 - 1)
    if x ≤ m then some (.proceed, counters.set deviceId ((x + 1) % 2 ^ 64))
    else some (.skip, counters)

/-! ## Device-properties collector (src/lib.rs) -/

/-- `DeviceProperties` from src/lib.rs (`run_time_since_last_service_hours`
is an `f64`, modelled as `ℚ`). -/
structure DeviceProperties where
  serial_number : Str
  run_time_since_last_service_hours : ℚ
  last_service_month : ℕ
  last_service_year : ℕ
deriving DecidableEq

/-- `DevicePropertiesCollector` from src/lib.rs. -/
structure DevicePropertiesCollector where
  serial_number : Option Str
  run_time_since_last_service_hours : Option ℚ
  last_service_month : Option ℕ
  last_service_year : Option ℕ
deriving DecidableEq

/-- `DevicePropertiesCollector::new`. -/
def DevicePropertiesCollector.new : DevicePropertiesCollector :=
  ⟨none, none, none, none⟩

/-- `DevicePropertiesCollector::process`: update the field named by the
setting, then, if all four fields are present, publish — note that the
serial number is moved out with `.take()`, clearing it, while the other
three fields are only read. -/
def DevicePropertiesCollector.process (st : DevicePropertiesCollector)
    (setting : SettingMessage) :
    DevicePropertiesCollector × Option DeviceProperties :=
  let st :=
    match setting with
    | .serialNumber sn => { st with serial_number := some sn }
    | .runTimeSinceService deca =>
      { st with run_time_since_last_service_hours := some ((deca : ℚ) * 10 / 60) }
    | .dateLastServiced month year =>
      { st with
        last_service_month := some month
        last_service_year :=
          some (if year < 80 then 2000 + year else 1900 + year) }
    | _ => st
  match st.serial_number, st.run_time_since_last_service_hours,
      st.last_service_month, st.last_service_year with
  | some sn, some rt, some m, some y =>
    ({ st with serial_number := none }, some ⟨sn, rt, m, y⟩)
  | _, _, _, _ => (st, none)

/-- Feed a list of setting messages to a collector, counting the
notifications produced. -/
def runCollector : DevicePropertiesCollector → List SettingMessage →
    DevicePropertiesCollector × ℕ
  | st, [] => (st, 0)
  | st, m :: rest =>
    let out := st.process m
    let next := runCollector out.1 rest
    (next.1, (if out.2.isSome then 1 else 0) + next.2)

/-- Number of `SerialNumber` messages in a list. -/
def countSerial (msgs : List SettingMessage) : ℕ :=
  (msgs.filter fun m => match m with
    | .serialNumber _ => true
    | _ => false).length

/-! ## Test orchestrator (src/test.rs) -/

inductive ValveState where
  | specimen
  | awaitingAmbient
  | ambient
  | awaitingSpecimen
deriving DecidableEq

inductive SampleType where
  | ambientPurge
  | ambientSample
  | specimenPurge
  | specimenSample
deriving DecidableEq

structure SampleData where
  device_id : ℕ
  exercise : ℕ
  value : ℚ
  sample_type : SampleType
deriving DecidableEq

inductive TestState where
  | pending
  | startedExercise (exercise : ℕ)
  | finished
deriving DecidableEq

/-- `StageResults` from src/test.rs: the Rust enum has two variants of
identical shape (`AmbientSample` and `Exercise`); `isAmbient` encodes
the variant tag. -/
structure StageResults where
  isAmbient : Bool
  purges : List ℚ
  samples : List ℚ
  config : StageCounts
deriving DecidableEq

/-- `StageResults::from`. -/
def StageResults.fromStage : TestStage → StageResults
  | .ambientSample counts => ⟨true, [], [], counts⟩
  | .exercise _ counts => ⟨false, [], [], counts⟩

def StageResults.is_ambient_sample (r : StageResults) : Bool := r.isAmbient

def StageResults.is_exercise (r : StageResults) : Bool := !r.isAmbient

/-- `StageResults::append`: the leading `assert!` (neither purges nor
samples have room) is the `none` case; purges fill first. -/
def StageResults.append (r : StageResults) (value : ℚ) :
    Option (SampleType × StageResults) :=
  if r.purges.length < r.config.purge_count ∨
      r.samples.length < r.config.sample_count then
    if r.purges.length < r.config.purge_count then
      some ((if r.isAmbient then .ambientPurge else .specimenPurge),
        { r with purges := r.purges ++ [value] })
    else
      some ((if r.isAmbient then .ambientSample else .specimenSample),
        { r with samples := r.samples ++ [value] })
  else none

def StageResults.is_complete (r : StageResults) : Bool :=
  r.purges.length = r.config.purge_count &&
    r.samples.length = r.config.sample_count

def StageResults.has_samples (r : StageResults) : Bool := !r.samples.isEmpty

/-- `StageResults::avg`: the sample average, floored at the minimum
measurable concentration `60 / 100 / n` (Appendix D of the device
manual). -/
def StageResults.avg (r : StageResults) : ℚ :=
  max (r.samples.sum / (r.samples.length : ℚ))
    (60 / 100 / (r.samples.length : ℚ))

/-- `TestNotification` from src/test.rs.  The `error` field of
`ExerciseResult` is a floating-point square root (Poisson counting
error); it has no exact rational value and no claim refers to it, so it
is omitted from the embedding. -/
inductive TestNotification where
  | stateChange (test_state : TestState)
  | exerciseResult (device_id exercise : ℕ) (fit_factor : ℚ)
  | sample (data : SampleData)
  | liveFF (device_id exercise index : ℕ) (fit_factor : ℚ)
  | interimFF (device_id exercise : ℕ) (fit_factor : ℚ)
deriving DecidableEq

inductive StepOutcome where
  | testComplete
  | none
deriving DecidableEq

/-- `Test` from src/test.rs.  The command channel is modelled by
returning the sent commands; `device_synchroniser` is `None` in every
run considered here (so `try_step` is never consulted) and the callback
is modelled by returning the notifications. -/
structure Test where
  config : TestConfig
  device_id : ℕ
  current_stage : ℕ
  results : List StageResults
  exercise_ffs : List ℚ
  exercises_completed : ℕ
  initial_commands : Option (List Command)
deriving DecidableEq

/-- Result of one orchestrator step: the new test state and valve
state, the step outcome, and the notifications and commands emitted
(in order). -/
structure StepResult where
  test : Test
  valve : ValveState
  outcome : StepOutcome
  notifications : List TestNotification
  commands : List Command
deriving DecidableEq

/-- `Test::last_ambient`: newest-first search; the panic for a config
with no ambient stage results is `none`. -/
def Test.last_ambient (t : Test) : Option StageResults :=
  t.results.reverse.find? (·.is_ambient_sample)

/-- `Test::store_sample`.  `none` is a panic (empty `results` for the
`last_mut().unwrap()`, an `append` assert, or a valve/stage-mismatch
assert).  The inner `Option SampleType` is `None` when the sample is
discarded.  Note the source's `AwaitingSpecimen` arm has no early
return: it re-sends the valve command and then falls through to
`append`. -/
def Test.store_sample (t : Test) (value : ℚ) (valve : ValveState) :
    Option (Option SampleType × Test × List Command) :=
  match t.results.getLast? with
  | Option.none => none
  | some stage_results =>
    match valve with
    | .awaitingAmbient => some (Option.none, t, [Command.valveAmbient])
    | .awaitingSpecimen =>
      match stage_results.append value with
      | Option.none => none
      | some (ty, r') =>
        some (some ty, { t with results := t.results.dropLast ++ [r'] },
          [Command.valveSpecimen])
    | .ambient =>
      if stage_results.is_ambient_sample then
        match stage_results.append value with
        | Option.none => none
        | some (ty, r') =>
          some (some ty, { t with results := t.results.dropLast ++ [r'] }, [])
      else none
    | .specimen =>
      if stage_results.is_exercise then
        match stage_results.append value with
        | Option.none => none
        | some (ty, r') =>
          some (some ty, { t with results := t.results.dropLast ++ [r'] }, [])
      else none

/-- First `AmbientSample` entry of a (already reversed) results list:
its samples paired with the remainder of the iterator. -/
def firstAmbientSplit : List StageResults → Option (List ℚ × List StageResults)
  | [] => none
  | r :: rest =>
    if r.is_ambient_sample then some (r.samples, rest)
    else firstAmbientSplit rest

/-- The `while let Some(..) = stack.pop()` loop of
`Test::calculate_ffs`: exercises are processed in chronological order
(the pop order of the stack built from the reversed walk), each FF is
reported under index `exercise_ffs.len()` and appended. -/
def ffLoop (ambient_avg : ℚ) (device_id : ℕ) :
    List ℚ → Test → Test × List TestNotification
  | [], t => (t, [])
  | e :: rest, t =>
    let ff := ambient_avg / e
    let out := ffLoop ambient_avg device_id rest
      { t with exercise_ffs := t.exercise_ffs ++ [ff] }
    (out.1, .exerciseResult device_id t.exercise_ffs.length ff :: out.2)

/-- `Test::calculate_ffs`: pool the samples of the two most recent
ambient stages, average the exercise stages strictly between the top of
`results` (skipped) and the next ambient stage, and resolve their FFs.
`none` models the panics when fewer than two ambient stages exist. -/
def Test.calculate_ffs (t : Test) : Option (Test × List TestNotification) :=
  let rev := t.results.reverse
  match firstAmbientSplit rev with
  | Option.none => none
  | some (samples1, rest1) =>
    match firstAmbientSplit rest1 with
    | Option.none => none
    | some (samples2, _) =>
      let ambients := samples1 ++ samples2
      let ambient_sum := ambients.sum
      let ambient_avg := ambient_sum / (ambients.length : ℚ)
      let exercises :=
        (((rev.drop 1).takeWhile (·.is_exercise)).reverse).map (·.avg)
      some (ffLoop ambient_avg t.device_id exercises t)

/-- `Option::take(&mut self.initial_commands)` together with the flush
of the taken commands. -/
def Test.takeInitialCommands (t : Test) : Test × List Command :=
  match t.initial_commands with
  | some ics => ({ t with initial_commands := Option.none }, ics)
  | Option.none => (t, [])

/-- `Test::process_sample`.  `none` marks a panic (the entry assert, a
`store_sample` panic, the `last_ambient` assert, a `calculate_ffs`
panic, or an out-of-range stage index — the last being unreachable as
`current_stage < stages.len() - 1` on that path). -/
def Test.process_sample (t : Test) (value : ℚ) (valve : ValveState) :
    Option StepResult :=
  match t.results.getLast? with
  | Option.none => none
  | some lastRes =>
    if t.current_stage = t.config.stages.length ∧ lastRes.is_complete then
      none
    else
      let taken := t.takeInitialCommands
      let t0 := taken.1
      let cmds0 := taken.2
      match t0.store_sample value valve with
      | Option.none => none
      | some (Option.none, t1, cmds1) =>
        some ⟨t1, valve, .none, [], cmds0 ++ cmds1⟩
      | some (some stored_ty, t1, cmds1) =>
        let notifSample : TestNotification :=
          .sample ⟨t1.device_id, t1.exercises_completed, value, stored_ty⟩
        match t1.results.getLast? with
        | Option.none => none
        | some stage_results =>
          let liveOut : Option (List TestNotification) :=
            if stage_results.is_exercise then
              match t1.last_ambient with
              | Option.none => none
              | some la =>
                if ¬ la.has_samples then none
                else if stage_results.has_samples then
                  let ambient_avg := la.avg
                  let live_ff := ambient_avg / (max value (100 / 60))
                  let interim_ff := ambient_avg / stage_results.avg
                  some [.liveFF t1.device_id t1.exercises_completed
                          stage_results.samples.length live_ff,
                        .interimFF t1.device_id t1.exercises_completed interim_ff]
                else some []
            else some []
          match liveOut with
          | Option.none => none
          | some liveNotifs =>
            if stage_results.is_complete then
              let ffOut :=
                if t1.exercises_completed > 0 ∧ stage_results.is_ambient_sample then
                  t1.calculate_ffs
                else some (t1, [])
              match ffOut with
              | Option.none => none
              | some (t2, ffNotifs) =>
                if t2.current_stage = t2.config.stages.length - 1 then
                  some ⟨t2, .awaitingSpecimen, .testComplete,
                    notifSample :: (liveNotifs ++ ffNotifs),
                    cmds0 ++ cmds1 ++
                      [Command.valveSpecimen, Command.clearDisplay,
                       Command.beep 50]⟩
                else
                  let t3 := { t2 with current_stage := t2.current_stage + 1 }
                  match t3.config.stages.get? t3.current_stage with
                  | Option.none => none
                  | some newStage =>
                    let newResults := StageResults.fromStage newStage
                    let t4 := { t3 with results := t3.results ++ [newResults] }
                    let valveOut : ValveState × List Command :=
                      if newResults.is_ambient_sample then
                        (.awaitingAmbient, [Command.valveAmbient])
                      else if valve = .specimen then (valve, [])
                      else (.awaitingSpecimen, [Command.valveSpecimen])
                    let finalOut : Test × List TestNotification × List Command :=
                      if stage_results.is_exercise then
                        let t5 := { t4 with
                          exercises_completed := t4.exercises_completed + 1 }
                        if t5.results.length ≠ t5.config.stages.length then
                          (t5,
                           [.stateChange (.startedExercise t5.exercises_completed)],
                           [Command.displayExercise ((t5.exercises_completed + 1) % 20),
                            Command.beep 10])
                        else (t5, [], [])
                      else (t4, [], [])
                    some ⟨finalOut.1, valveOut.1, .none,
                      notifSample :: (liveNotifs ++ ffNotifs ++ finalOut.2.1),
                      cmds0 ++ cmds1 ++ valveOut.2 ++ finalOut.2.2⟩
            else
              some ⟨t1, valve, .none, notifSample :: liveNotifs, cmds0 ++ cmds1⟩

/-- `Test::step`: samples go through `process_sample` (no device
synchroniser is configured in the runs considered here, so
`map_or(Proceed, ..)` always proceeds); valve echoes update the valve
state; everything else is logged and ignored. -/
def Test.step (t : Test) (msg : Message) (valve : ValveState) :
    Option StepResult :=
  match msg with
  | .sample value => t.process_sample value valve
  | .response c =>
    match c with
    | .valveAmbient => some ⟨t, .ambient, .none, [], []⟩
    | .valveSpecimen => some ⟨t, .specimen, .none, [], []⟩
    | _ => some ⟨t, valve, .none, [], []⟩
  | .errorResponse _ => some ⟨t, valve, .none, [], []⟩
  | .unknownError _ => some ⟨t, valve, .none, [], []⟩
  | .setting _ => some ⟨t, valve, .none, [], []⟩

/-- `Test::create`: the two `assert!`s on the config are the `none`
cases. -/
def Test.create (config : TestConfig) (initial_commands : List Command) :
    Option Test :=
  if config.stages.length < 3 then none
  else
    match config.stages.head? with
    | Option.none => none
    | some s0 =>
      if ¬ s0.is_ambient_sample then none
      else some
        { config := config
          device_id := 0
          current_stage := 0
          results := [StageResults.fromStage s0]
          exercise_ffs := []
          exercises_completed := 0
          initial_commands := some initial_commands }

/-- `Test::create_and_start`: queue `ValveAmbient` first when the valve
is on the specimen side, then the fixed initial command sequence, and
emit `StateChange(StartedExercise(0))`. -/
def Test.create_and_start (config : TestConfig) (valve : ValveState) :
    Option (Test × ValveState × List TestNotification) :=
  let pre : ValveState × List Command :=
    match valve with
    | .ambient | .awaitingAmbient => (valve, [])
    | .specimen | .awaitingSpecimen => (.awaitingAmbient, [Command.valveAmbient])
  let initial_commands := pre.2 ++
    [Command.clearDisplay,
     Command.indicator { Indicator.empty with in_progress := true },
     Command.displayExercise 1,
     Command.beep 40]
  match Test.create config initial_commands with
  | Option.none => none
  | some test => some (test, pre.1, [.stateChange (.startedExercise 0)])

/-- Drive a sequence of messages through `Test::step`, accumulating the
notifications and commands; the reported outcome is that of the last
step. -/
def runSteps : Test → ValveState → List Message → Option StepResult
  | t, v, [] => some ⟨t, v, .none, [], []⟩
  | t, v, m :: rest =>
    match t.step m v with
    | Option.none => none
    | some r =>
      match rest with
      | [] => some r
      | _ :: _ =>
        match runSteps r.test r.valve rest with
        | Option.none => none
        | some rF =>
          some ⟨rF.test, rF.valve, rF.outcome,
            r.notifications ++ rF.notifications, r.commands ++ rF.commands⟩

/-- Two adjacent stages are both AmbientSample somewhere in the list
(the spec-side reading of the "no two consecutive AmbientSample
stages" invariant). -/
def consecutiveAmbient : List TestStage → Bool
  | a :: b :: rest =>
    (a.is_ambient_sample && b.is_ambient_sample) || consecutiveAmbient (b :: rest)
  | _ => false

/-! ## Lemmas about the formatting helpers -/

theorem padZeros_length {s : Str} {w : ℕ} (h : s.length ≤ w) :
    (padZeros w s).length = w := by
  simp only [padZeros, List.length_append, List.length_replicate]
  omega

theorem natDigitsAux_length :
    ∀ fuel n k, 1 ≤ k → n < 10 ^ k → (natDigitsAux fuel n).length ≤ k := by
  intro fuel
  induction fuel with
  | zero => intro n k _ _; simp [natDigitsAux]
  | succ f ih =>
    intro n k hk hn
    unfold natDigitsAux
    split
    · simpa using hk
    · rename_i hten
      have hk2 : 2 ≤ k := by
        rcases Nat.lt_or_ge k 2 with hlt | hge
        · interval_cases k
          · exact absurd hn (by omega)
        · exact hge
      have hdiv : n / 10 < 10 ^ (k - 1) := by
        rw [Nat.div_lt_iff_lt_mul (by norm_num)]
        calc n < 10 ^ k := hn
          _ = 10 ^ (k - 1) * 10 := by
            rw [← pow_succ]
            congr 1
            omega
      have := ih (n / 10) (k - 1) (by omega) hdiv
      simp only [List.length_append, List.length_cons, List.length_nil]
      omega

theorem natDigits_length {n k : ℕ} (hk : 1 ≤ k) (hn : n < 10 ^ k) :
    (natDigits n).length ≤ k :=
  natDigitsAux_length (n + 1) n k hk hn

theorem natWire_length {n w : ℕ} (hw : 1 ≤ w) (hn : n < 10 ^ w) :
    (natWire w n).length = w :=
  padZeros_length (natDigits_length hw hn)

theorem roundHalfEven_cases (q : ℚ) :
    roundHalfEven q = ⌊q⌋ ∨ roundHalfEven q = ⌊q⌋ + 1 := by
  unfold roundHalfEven
  split_ifs <;> simp

theorem roundHalfEven_nonneg {q : ℚ} (h : 0 ≤ q) : 0 ≤ roundHalfEven q := by
  have hf : (0 : ℤ) ≤ ⌊q⌋ := Int.floor_nonneg.mpr h
  rcases roundHalfEven_cases q with hc | hc <;> omega

theorem roundHalfEven_le {q : ℚ} {m : ℤ} (h : q < m) : roundHalfEven q ≤ m := by
  have hf : ⌊q⌋ < m := Int.floor_lt.mpr (by exact_mod_cast h)
  rcases roundHalfEven_cases q with hc | hc <;> omega

theorem fmtFixed2Width9_length {q : ℚ} (h0 : 0 ≤ q) (h1 : q < 100) :
    (fmtFixed2Width9 q).length = 9 := by
  unfold fmtFixed2Width9
  have hc0 : 0 ≤ roundHalfEven (q * 100) :=
    roundHalfEven_nonneg (by positivity)
  have hc1 : roundHalfEven (q * 100) ≤ 10000 :=
    roundHalfEven_le (m := 10000) (by push_cast; linarith)
  rw [if_neg (by omega)]
  apply padZeros_length
  have hdig : (natDigits ((roundHalfEven (q * 100)).toNat / 100)).length ≤ 3 := by
    apply natDigits_length (by norm_num)
    have : (roundHalfEven (q * 100)).toNat ≤ 10000 := by omega
    calc (roundHalfEven (q * 100)).toNat / 100 ≤ 10000 / 100 :=
          Nat.div_le_div_right this
      _ < 10 ^ 3 := by norm_num
  have hfrac : (natWire 2 ((roundHalfEven (q * 100)).toNat % 100)).length = 2 :=
    natWire_length (by norm_num) (by
      have := Nat.mod_lt (roundHalfEven (q * 100)).toNat (show 0 < 100 by norm_num)
      calc (roundHalfEven (q * 100)).toNat % 100 < 100 := this
        _ ≤ 10 ^ 2 := by norm_num)
  simp only [List.length_append, List.length_cons]
  omega

/-! ## Lemmas about the parsers -/

theorem startsWith_cons {s : Str} {p : Char} {ps : Str}
    (h : startsWith s (p :: ps) = true) :
    ∃ t, s = p :: t ∧ startsWith t ps = true := by
  cases s with
  | nil => simp [startsWith] at h
  | cons c t =>
    simp only [startsWith, Bool.and_eq_true, decide_eq_true_eq] at h
    exact ⟨t, by rw [h.1], h.2⟩

theorem stripPre_isSome {p : Str} :
    ∀ {s : Str}, startsWith s p = true → ∃ t, stripPre s p = some t := by
  induction p with
  | nil => intro s _; exact ⟨s, by cases s <;> rfl⟩
  | cons c ps ih =>
    intro s h
    obtain ⟨t, rfl, ht⟩ := startsWith_cons h
    obtain ⟨u, hu⟩ := ih ht
    refine ⟨u, ?_⟩
    simp only [stripPre, if_pos rfl]
    exact hu

theorem dropBytes_zero (t : Str) : dropBytes t 0 = some t := by
  rw [dropBytes.eq_def]
  simp

theorem dropBytes_one {c : Char} {t : Str} (h : c.utf8Size = 1) :
    dropBytes (c :: t) 1 = some t := by
  rw [dropBytes.eq_def, if_neg (by omega)]
  show (if c.utf8Size ≤ 1 then dropBytes t (1 - c.utf8Size) else none) = some t
  rw [h]
  norm_num
  exact dropBytes_zero t

theorem parseCommand_isSome (command : Str) : (parseCommand command).isSome := by
  rw [parseCommand]
  by_cases h1 : command = "VN".toList
  · rw [if_pos h1]; rfl
  rw [if_neg h1]
  by_cases h2 : command = "VF".toList ∨ command = "VO".toList
  · rw [if_pos h2]; rfl
  rw [if_neg h2]
  by_cases h3 : command = "OK".toList
  · rw [if_pos h3]; rfl
  rw [if_neg h3]
  by_cases h4 : command = "G".toList
  · rw [if_pos h4]; rfl
  rw [if_neg h4]
  by_cases h5 : command = "K".toList
  · rw [if_pos h5]; rfl
  rw [if_neg h5]
  by_cases hB : startsWith command "B".toList = true
  · rw [if_pos hB]
    obtain ⟨t, rfl, -⟩ := startsWith_cons hB
    rw [dropBytes_one (by decide)]
    rfl
  rw [if_neg hB]
  by_cases hN : startsWith command "N".toList = true
  · rw [if_pos hN]
    obtain ⟨t, rfl, -⟩ := startsWith_cons hN
    rw [dropBytes_one (by decide)]
    rfl
  rw [if_neg hN]
  by_cases hD : startsWith command "D".toList = true
  · rw [if_pos hD]
    obtain ⟨t, rfl, -⟩ := startsWith_cons hD
    rw [dropBytes_one (by decide)]
    rfl
  rw [if_neg hD]
  by_cases hI : startsWith command "I".toList = true
  · rw [if_pos hI]
    by_cases hlen : command.length ≠ 9
    · rw [if_pos hlen]; rfl
    · rw [if_neg hlen]; rfl
  · rw [if_neg hI]; rfl

theorem parseSetting_isSome (setting : Str) : (parseSetting setting).isSome := by
  unfold parseSetting
  split
  · rename_i h
    obtain ⟨t, ht⟩ := stripPre_isSome h
    rw [ht]
    rfl
  split
  · rename_i h
    obtain ⟨t, ht⟩ := stripPre_isSome h
    rw [ht]
    rfl
  split
  · rename_i h
    obtain ⟨t, ht⟩ := stripPre_isSome h
    rw [ht]
    rfl
  split
  · rename_i h
    obtain ⟨t, ht⟩ := stripPre_isSome h
    rw [ht]
    rfl
  split
  · rename_i h
    obtain ⟨t, ht⟩ := stripPre_isSome h
    rw [ht]
    rfl
  split
  · rename_i h
    obtain ⟨t, ht⟩ := stripPre_isSome h
    rw [ht]
    rfl
  split
  · rename_i h
    obtain ⟨t, ht⟩ := stripPre_isSome h
    rw [ht]
    rfl
  split
  · rename_i h
    obtain ⟨t, ht⟩ := stripPre_isSome h
    rw [ht]
    rfl
  · rfl

theorem parseMessage_isSome (message : Str) : (parseMessage message).isSome := by
  rw [parseMessage]
  by_cases h1 : message = []
  · rw [if_pos h1]; rfl
  rw [if_neg h1]
  by_cases h2 : isAsciiDigit (message.headD 'x') = true
  · rw [if_pos h2]; rfl
  rw [if_neg h2]
  by_cases h3 : startsWith message "E".toList = true
  · rw [if_pos h3]; rfl
  rw [if_neg h3]
  by_cases h4 : startsWith message "S".toList = true
  · rw [if_pos h4]
    have hs := parseSetting_isSome message
    cases hps : parseSetting message with
    | none => rw [hps] at hs; exact absurd hs (by simp)
    | some r => cases r <;> rfl
  · rw [if_neg h4]
    have hc := parseCommand_isSome message
    cases hpc : parseCommand message with
    | none => rw [hpc] at hc; exact absurd hc (by simp)
    | some r => cases r <;> rfl

/-! ## Claim C10: total, panic-free parsing -/

/-- C10: for every input string (arbitrary Unicode content), the
embedded `parse_message` neither panics (`none`, which would mark an
unguarded slice or unwrap) nor diverges: it returns `Ok` or a
`ParseError`. -/
theorem claim_C10_parse_message_total (s : Str) :
    ∃ r : Except ParseError Message, parseMessage s = some r := by
  have h := parseMessage_isSome s
  exact Option.isSome_iff_exists.mp h

/-! ## Claim C1: command round-trip -/

/-- C1 counterexample: `EnterExternalControl` encodes to `"J"`, but
parsing `"J"` yields a `ParseError` (the device echoes `"OK"` instead),
so the claimed round-trip fails as stated. -/
theorem claim_C1_counterexample :
    Command.toWire .enterExternalControl = .ok "J".toList ∧
    parseMessage "J".toList ≠ some (.ok (.response .enterExternalControl)) := by
  constructor
  · rfl
  · decide

theorem roundtrip_beep :
    ∀ d < 61, 1 ≤ d →
      parseMessage ('B' :: natWire 2 d) = some (.ok (.response (.beep d))) := by
  decide

theorem roundtrip_displayExercise :
    ∀ e < 20,
      parseMessage ('N' :: natWire 2 e) =
        some (.ok (.response (.displayExercise e))) := by
  decide

theorem roundtrip_indicator :
    ∀ b1 b2 b3 b4 b5 b6 b7 : Bool,
      parseMessage ('I' :: '0' ::
          (if b1 then '1' else '0') :: (if b2 then '1' else '0') ::
          (if b3 then '1' else '0') :: (if b4 then '1' else '0') ::
          (if b5 then '1' else '0') :: (if b6 then '1' else '0') ::
          (if b7 then '1' else '0') :: []) =
        some (.ok (.response (.indicator ⟨b1, b2, b3, b4, b5, b6, b7⟩))) := by
  decide

/-- C1 (amended): the round-trip holds for every command except
`EnterExternalControl` (encoded `"J"`, echoed as `"OK"`),
`RequestSettings` (encoded `"S"`, answered by setting messages, not an
echo), and `DisplayConcentration` (whose wire form is a rounded
rendering of the value). -/
theorem claim_C1_roundtrip (c : Command) (s : Str)
    (h1 : c ≠ .enterExternalControl)
    (h2 : c ≠ .requestSettings)
    (h3 : ∀ q, c ≠ .displayConcentration q)
    (h : c.toWire = .ok s) :
    parseMessage s = some (.ok (.response c)) := by
  cases c with
  | enterExternalControl => exact absurd rfl h1
  | requestSettings => exact absurd rfl h2
  | displayConcentration q => exact absurd rfl (h3 q)
  | exitExternalControl =>
    obtain rfl : "G".toList = s := by simpa [Command.toWire] using h
    decide
  | valveAmbient =>
    obtain rfl : "VN".toList = s := by simpa [Command.toWire] using h
    decide
  | valveSpecimen =>
    obtain rfl : "VF".toList = s := by simpa [Command.toWire] using h
    decide
  | clearDisplay =>
    obtain rfl : "K".toList = s := by simpa [Command.toWire] using h
    decide
  | beep d =>
    rw [Command.toWire] at h
    split at h
    · rename_i hd
      obtain rfl : 'B' :: natWire 2 d = s := by simpa using h
      exact roundtrip_beep d (by omega) hd.1
    · exact absurd h (by simp)
  | displayExercise e =>
    rw [Command.toWire] at h
    split at h
    · rename_i he
      obtain rfl : 'N' :: natWire 2 e = s := by simpa using h
      exact roundtrip_displayExercise e (by omega)
    · exact absurd h (by simp)
  | indicator i =>
    obtain ⟨b1, b2, b3, b4, b5, b6, b7⟩ := i
    obtain rfl :
        ('I' :: '0' ::
          (if b1 then '1' else '0') :: (if b2 then '1' else '0') ::
          (if b3 then '1' else '0') :: (if b4 then '1' else '0') ::
          (if b5 then '1' else '0') :: (if b6 then '1' else '0') ::
          (if b7 then '1' else '0') :: []) = s := by
      simpa [Command.toWire] using h
    exact roundtrip_indicator b1 b2 b3 b4 b5 b6 b7

/-- C1 witness: the round-trip theorem applied at `Beep 5`. -/
theorem claim_C1_roundtrip_witness :
    parseMessage ('B' :: natWire 2 5) =
      some (.ok (.response (.beep 5))) :=
  claim_C1_roundtrip (.beep 5) ('B' :: natWire 2 5)
    (by decide) (by decide) (by intro q h; cases h) rfl

/-! ## Claim C9: DisplayConcentration encoding -/

/-- C9: for non-negative `x`, `DisplayConcentration(x).to_wire()`
succeeds exactly when `x < 100` or the half-away-from-zero rounding of
`x` is at most 999 999 999; every successful encoding is `'D'` followed
by nine characters; and the concrete renderings of the claim hold
(`0.0 ↦ "D000000.00"`, `99.9 ↦ "D000099.90"`, `100.5 ↦ "D000000101"`,
`1 000 000 000 ↦ OutOfRange`). -/
theorem claim_C9_display_concentration :
    (∀ q : ℚ, 0 ≤ q →
      (((Command.displayConcentration q).toWire.isOk = true) ↔
        (q < 100 ∨ (rustRound q).toNat ≤ 999999999)) ∧
      (∀ s, (Command.displayConcentration q).toWire = .ok s →
        s.length = 10 ∧ s.headD ' ' = 'D')) ∧
    (Command.displayConcentration 0).toWire = .ok "D000000.00".toList ∧
    (Command.displayConcentration (999/10)).toWire = .ok "D000099.90".toList ∧
    (Command.displayConcentration (201/2)).toWire = .ok "D000000101".toList ∧
    (Command.displayConcentration 1000000000).toWire =
      .error (.outOfRange (.displayConcentration 1000000000) 0 999999999) := by
  refine ⟨?_, by decide, by decide, by decide, by decide⟩
  intro q hq
  constructor
  · rw [Command.toWire]
    split
    · rename_i hlt
      simp [hlt, Except.isOk, Except.toBool]
    · rename_i hge
      simp only [hge, false_or]
      split
      · rename_i hbig
        simp only [Except.isOk, Except.toBool]
        constructor
        · intro habs; cases habs
        · intro hle; omega
      · rename_i hsmall
        simp only [Except.isOk, Except.toBool, true_iff]
        omega
  · intro s hs
    rw [Command.toWire] at hs
    split at hs
    · rename_i hlt
      obtain rfl : 'D' :: fmtFixed2Width9 q = s := by simpa using hs
      refine ⟨?_, rfl⟩
      simp [fmtFixed2Width9_length hq hlt]
    · rename_i hge
      dsimp only at hs
      split at hs
      · exact absurd hs (by simp)
      · rename_i hsmall
        obtain rfl : 'D' :: natWire 9 (rustRound q).toNat = s := by simpa using hs
        refine ⟨?_, rfl⟩
        have : (natWire 9 (rustRound q).toNat).length = 9 :=
          natWire_length (by norm_num) (by norm_num; omega)
        simp [this]

/-- C9 witness: the encoding theorem applied at `x = 100.5`. -/
theorem claim_C9_witness :
    ((Command.displayConcentration (201/2)).toWire.isOk = true) ↔
      ((201/2 : ℚ) < 100 ∨ (rustRound (201/2)).toNat ≤ 999999999) :=
  (claim_C9_display_concentration.1 (201/2) (by norm_num)).1

/-! ## Claim C4: config validation -/

theorem validateLoop_ok :
    ∀ (rest : List TestStage) (prev : Option TestStage),
      validateLoop prev rest = .ok () ↔
        ((∀ s ∈ rest, 1 ≤ s.counts.sample_count) ∧
         consecutiveAmbient rest = false ∧
         ∀ p b, prev = some p → rest.head? = some b →
           ¬(p.is_ambient_sample = true ∧ b.is_ambient_sample = true)) := by
  intro rest
  induction rest with
  | nil =>
    intro prev
    constructor
    · intro _
      refine ⟨by simp, rfl, ?_⟩
      intro p b _ hb
      simp at hb
    · intro _
      rfl
  | cons a rest ih =>
    intro prev
    rw [validateLoop.eq_def]
    dsimp only
    split
    · rename_i hcond
      constructor
      · intro h; cases h
      · rintro ⟨-, -, hhead⟩
        exfalso
        cases prev with
        | none => simp at hcond
        | some p =>
          simp only [Bool.and_eq_true] at hcond
          exact hhead p a rfl rfl ⟨hcond.1, hcond.2⟩
    · rename_i hcond
      split
      · rename_i hsc
        constructor
        · intro h; cases h
        · rintro ⟨hs, -, -⟩
          have := hs a (by simp)
          omega
      · rename_i hsc
        rw [ih (some a)]
        constructor
        · rintro ⟨h1, h2, h3⟩
          refine ⟨?_, ?_, ?_⟩
          · intro s hs'
            rcases List.mem_cons.mp hs' with rfl | hmem
            · omega
            · exact h1 s hmem
          · cases rest with
            | nil => rfl
            | cons b rest2 =>
              have hab := h3 a b rfl rfl
              rw [consecutiveAmbient]
              simp only [Bool.or_eq_false_iff, Bool.and_eq_false_iff]
              refine ⟨?_, h2⟩
              by_cases ha : a.is_ambient_sample = true
              · by_cases hb : b.is_ambient_sample = true
                · exact absurd ⟨ha, hb⟩ hab
                · right; simpa using hb
              · left; simpa using ha
          · rintro p b rfl hb
            simp only [List.head?_cons, Option.some.injEq] at hb
            subst hb
            intro ⟨hp, hbamb⟩
            exact hcond (by simp [hp, hbamb])
        · rintro ⟨h1, h2, -⟩
          refine ⟨fun s hmem => h1 s (List.mem_cons_of_mem a hmem), ?_, ?_⟩
          · cases rest with
            | nil => rfl
            | cons b rest2 =>
              rw [consecutiveAmbient] at h2
              simp only [Bool.or_eq_false_iff] at h2
              exact h2.2
          · intro p b hpa hb
            obtain rfl : a = p := by injection hpa
            intro ⟨hp, hbamb⟩
            cases rest with
            | nil => simp at hb
            | cons c rest2 =>
              simp only [List.head?_cons, Option.some.injEq] at hb
              subst hb
              rw [consecutiveAmbient] at h2
              simp [hp, hbamb] at h2

/-- C4: `validate` accepts a config exactly when it has at least three
stages, the first and last stages are AmbientSample, no two consecutive
stages are both AmbientSample, and every stage has `sample_count ≥ 1`
(`purge_count` is unconstrained). -/
theorem claim_C4_validate_iff (cfg : TestConfig) :
    cfg.validate = .ok () ↔
      (3 ≤ cfg.stages.length ∧
       (∀ hd, cfg.stages.head? = some hd → hd.is_ambient_sample = true) ∧
       (∀ lst, cfg.stages.getLast? = some lst → lst.is_ambient_sample = true) ∧
       consecutiveAmbient cfg.stages = false ∧
       ∀ s ∈ cfg.stages, 1 ≤ s.counts.sample_count) := by
  rw [TestConfig.validate]
  split
  · rename_i hlen
    constructor
    · intro h; cases h
    · rintro ⟨h3, -⟩
      omega
  · rename_i hlen
    cases hstages : cfg.stages with
    | nil => rw [hstages] at hlen; simp at hlen
    | cons a t =>
      rw [hstages] at hlen
      cases hl : (a :: t).getLast? with
      | none =>
        exfalso
        have h2 := List.getLast?_isSome (l := a :: t)
        rw [hl] at h2
        simp at h2
      | some l =>
        rw [List.head?_cons]
        dsimp only
        split
        · rename_i hguard
          simp only [Bool.or_eq_true, Bool.not_eq_eq_eq_not, Bool.not_true] at hguard
          constructor
          · intro h; cases h
          · rintro ⟨-, hfirst, hlst, -, -⟩
            rcases hguard with hg | hg
            · rw [hfirst a rfl] at hg; cases hg
            · rw [hlst l rfl] at hg; cases hg
        · rename_i hguard
          simp only [Bool.or_eq_true, Bool.not_eq_eq_eq_not, Bool.not_true,
            not_or] at hguard
          rw [validateLoop_ok]
          constructor
          · rintro ⟨h1, h2, -⟩
            refine ⟨by simpa using Nat.le_of_not_lt hlen, ?_, ?_, h2, h1⟩
            · intro hd hhd
              cases hhd
              simpa using hguard.1
            · intro lst hlst
              cases hlst
              simpa using hguard.2
          · rintro ⟨-, -, -, h2, h1⟩
            exact ⟨h1, h2, by rintro p b h; cases h⟩

/-! ## Claim C5: parsing the §6 example configuration -/

/-- The example configuration of spec §6 (the OSHA fast FFP protocol),
line by line. -/
def oshaFastFfpLines : List Str :=
  [ "TEST,osha_fast_ffp,\"OSHA Fast FFP (Modified Filtering Facepiece protocol)\"".toList,
    "AMBIENT,4,5".toList,
    "EXERCISE,11,30,\"Bending Over\"".toList,
    "EXERCISE,0,30,\"Talking\"".toList,
    "EXERCISE,0,30,\"Head Side-to-Side\"".toList,
    "EXERCISE,0,30,\"Head Up-and-Down\"".toList,
    "AMBIENT,4,5".toList ]

/-- The configuration the §6 example must parse to: the `TEST` line's
id column lands in the `name` field and the display-name column in
`short_name` (see `TestConfig`). -/
def oshaFastFfpConfig : TestConfig :=
  { name := "osha_fast_ffp".toList
    short_name := "OSHA Fast FFP (Modified Filtering Facepiece protocol)".toList
    stages :=
      [ .ambientSample ⟨4, 5⟩,
        .exercise "Bending Over".toList ⟨11, 30⟩,
        .exercise "Talking".toList ⟨0, 30⟩,
        .exercise "Head Side-to-Side".toList ⟨0, 30⟩,
        .exercise "Head Up-and-Down".toList ⟨0, 30⟩,
        .ambientSample ⟨4, 5⟩ ] }

/-- C5: parsing the §6 example yields exactly the expected config — id
`osha_fast_ffp`, display name `OSHA Fast FFP (Modified Filtering
Facepiece protocol)`, six stages with the claimed kinds, counts and
names — and the result validates. -/
theorem claim_C5_parse_example :
    TestConfig.parseFromCsv oshaFastFfpLines = .ok oshaFastFfpConfig ∧
    oshaFastFfpConfig.validate = .ok () := by
  constructor
  · decide
  · decide

/-! ## Claim C7: synchroniser lock-step -/

theorem le_foldl_min :
    ∀ (l : List ℕ) (init x : ℕ),
      x ≤ l.foldl Nat.min init ↔ (x ≤ init ∧ ∀ c ∈ l, x ≤ c) := by
  intro l
  induction l with
  | nil => intro init x; simp
  | cons a t ih =>
    intro init x
    rw [List.foldl_cons, ih, Nat.le_min]
    constructor
    · rintro ⟨⟨h1, h2⟩, h3⟩
      refine ⟨h1, ?_⟩
      intro c hc
      rcases List.mem_cons.mp hc with rfl | hmem
      · exact h2
      · exact h3 c hmem
    · rintro ⟨h1, h2⟩
      exact ⟨⟨h1, h2 a (by simp)⟩, fun c hc => h2 c (List.mem_cons_of_mem a hc)⟩

theorem foldl_min_le {l : List ℕ} {init : ℕ} :
    ∀ c ∈ l, l.foldl Nat.min init ≤ c :=
  ((le_foldl_min l init _).mp le_rfl).2

/-- C7: `try_step` proceeds and increments this device's counter by
exactly one when its value is ≤ the minimum over all counters, and
otherwise skips leaving every counter unchanged; and the concrete N = 2
lock-step trace of the claim: from `[0,0]`, dev0 proceeds, further dev0
calls skip without changing state, dev1 proceeds, and from any equal
pair `[n,n]` (below the `u64` wrap) the alternating pair of calls both
proceed, so strictly alternating calls keep proceeding. -/
theorem claim_C7_try_step :
    (∀ (counters : List ℕ) (d x : ℕ),
      counters.get? d = some x →
      (∀ c ∈ counters, c ≤ 2 ^ 64 - 1) →
      ((∀ c ∈ counters, x ≤ c) → x < 2 ^ 64 - 1 →
        tryStep counters d = some (.proceed, counters.set d (x + 1))) ∧
      ((¬ ∀ c ∈ counters, x ≤ c) →
        tryStep counters d = some (.skip, counters))) ∧
    tryStep [0, 0] 0 = some (.proceed, [1, 0]) ∧
    tryStep [1, 0] 0 = some (.skip, [1, 0]) ∧
    tryStep [1, 0] 1 = some (.proceed, [1, 1]) ∧
    (∀ n, n < 2 ^ 64 - 1 →
      tryStep [n, n] 0 = some (.proceed, [n + 1, n]) ∧
      tryStep [n + 1, n] 1 = some (.proceed, [n + 1, n + 1])) := by
  refine ⟨?_, by decide, by decide, by decide, ?_⟩
  · intro counters d x hget hbound
    have hxmem : x ∈ counters := List.get?_mem hget
    constructor
    · intro hall hlt
      rw [tryStep, hget]
      dsimp only
      rw [if_pos ((le_foldl_min counters _ x).mpr ⟨hbound x hxmem, hall⟩)]
      have : (x + 1) % 2 ^ 64 = x + 1 := Nat.mod_eq_of_lt (by omega)
      rw [this]
    · intro hnotall
      rw [tryStep, hget]
      dsimp only
      rw [if_neg]
      intro hle
      exact hnotall fun c hc => le_trans hle (foldl_min_le c hc)
  · intro n hn
    have hmod : (n + 1) % 2 ^ 64 = n + 1 := Nat.mod_eq_of_lt (by omega)
    constructor
    · rw [tryStep]
      rw [show ([n, n].get? 0) = some n from rfl]
      dsimp only
      rw [if_pos (by
        rw [le_foldl_min]
        refine ⟨by omega, ?_⟩
        intro c hc
        rcases List.mem_cons.mp hc with rfl | hc
        · exact le_rfl
        · simp only [List.mem_singleton] at hc
          omega)]
      rw [hmod]
      rfl
    · rw [tryStep]
      rw [show ([n + 1, n].get? 1) = some n from rfl]
      dsimp only
      rw [if_pos (by
        rw [le_foldl_min]
        refine ⟨by omega, ?_⟩
        intro c hc
        rcases List.mem_cons.mp hc with rfl | hc
        · omega
        · simp only [List.mem_singleton] at hc
          omega)]
      rw [hmod]
      rfl

/-- C7 witness: the characterisation applied to two devices at `[0,0]`. -/
theorem claim_C7_witness :
    tryStep [0, 0] 0 = some (.proceed, [0, 0].set 0 (0 + 1)) :=
  (claim_C7_try_step.1 [0, 0] 0 0 rfl (by decide)).1 (by decide) (by decide)

/-! ## Claim C6: device-properties published at most once -/

/-- C6 counterexample: a second `SerialNumber` message after a publish
re-fills the (taken) serial field while the other three fields are
still set, so a second `DeviceProperties` notification is produced:
the claimed "at most one notification over the whole sequence" fails. -/
theorem claim_C6_counterexample :
    (runCollector .new
      [.serialNumber "A".toList, .runTimeSinceService 0,
       .dateLastServiced 1 24, .serialNumber "B".toList]).2 = 2 := by
  decide

def isSerialMessage : SettingMessage → Bool
  | .serialNumber _ => true
  | _ => false

theorem countSerial_cons (m : SettingMessage) (rest : List SettingMessage) :
    countSerial (m :: rest) =
      (if isSerialMessage m then 1 else 0) + countSerial rest := by
  rw [countSerial, countSerial, List.filter_cons]
  split
  · rename_i hm
    simp only [List.length_cons]
    rw [if_pos]
    · omega
    · cases m <;> simp_all [isSerialMessage]
  · rename_i hm
    rw [if_neg]
    · omega
    · cases m <;> simp_all [isSerialMessage]

theorem process_serial_spec (st : DevicePropertiesCollector) (m : SettingMessage) :
    ((st.process m).2.isSome = true → (st.process m).1.serial_number = none) ∧
    ((st.process m).1.serial_number.isSome = true →
      (isSerialMessage m = true ∨ st.serial_number.isSome = true)) ∧
    ((st.process m).2.isSome = true →
      (isSerialMessage m = true ∨ st.serial_number.isSome = true)) := by
  obtain ⟨sn, rt, mo, yr⟩ := st
  cases m <;> cases sn <;> cases rt <;> cases mo <;> cases yr <;>
    simp [DevicePropertiesCollector.process, isSerialMessage]

theorem runCollector_le_countSerial :
    ∀ (msgs : List SettingMessage) (st : DevicePropertiesCollector),
      (runCollector st msgs).2 ≤
        countSerial msgs + (if st.serial_number.isSome then 1 else 0) := by
  intro msgs
  induction msgs with
  | nil =>
    intro st
    rw [runCollector]
    simp [countSerial]
  | cons m rest ih =>
    intro st
    rw [runCollector]
    dsimp only
    rw [countSerial_cons]
    have hspec := process_serial_spec st m
    have hih := ih (st.process m).1
    by_cases hout : (st.process m).2.isSome = true
    · have h1 : (st.process m).1.serial_number = none := hspec.1 hout
      have h2 := hspec.2.2 hout
      rw [if_pos hout]
      rw [h1] at hih
      simp only [Option.isSome_none, Bool.false_eq_true, if_false, add_zero] at hih
      rcases h2 with h2 | h2
      · rw [if_pos h2]
        omega
      · rw [if_pos h2] at *
        omega
    · rw [if_neg hout]
      by_cases hser : (st.process m).1.serial_number.isSome = true
      · rcases hspec.2.1 hser with h2 | h2
        · rw [if_pos h2]
          rw [if_pos hser] at hih
          omega
        · rw [if_pos h2] at *
          rw [if_pos hser] at hih
          omega
      · simp only [Bool.not_eq_true] at hser
        rw [hser] at hih
        simp only [Bool.false_eq_true, if_false, add_zero] at hih
        omega

/-- C6 (amended): the collector publishes at most one `DeviceProperties`
notification per `SerialNumber` message — publishing `take()`s the
stored serial number, so a further notification needs a further
`SerialNumber` message; in particular a sequence with at most one
`SerialNumber` message (e.g. a single settings dump) yields at most one
notification, on the transition to all four fields known. -/
theorem claim_C6_publish_bound (msgs : List SettingMessage) :
    (runCollector .new msgs).2 ≤ countSerial msgs ∧
    (countSerial msgs ≤ 1 → (runCollector .new msgs).2 ≤ 1) := by
  have h := runCollector_le_countSerial msgs .new
  simp only [DevicePropertiesCollector.new, Option.isSome_none,
    Bool.false_eq_true, if_false, add_zero] at h
  exact ⟨h, fun h1 => le_trans h h1⟩

/-- C6 witness: the bound applied to a single settings dump. -/
theorem claim_C6_witness :
    (runCollector .new
      [.serialNumber "A".toList, .runTimeSinceService 0,
       .dateLastServiced 1 24]).2 ≤ 1 :=
  (claim_C6_publish_bound _).2 (by decide)

/-! ## Claims C2 and C3: live fit factors and a full test run -/

def isLiveFF : TestNotification → Bool
  | .liveFF _ _ _ _ => true
  | _ => false

def isExerciseResult : TestNotification → Bool
  | .exerciseResult _ _ _ => true
  | _ => false

/-- The S4 configuration: AmbientSample(0,1), Exercise("ex",0,1),
AmbientSample(0,1). -/
def c3Config : TestConfig where
  name := "cfg".toList
  short_name := "cfg".toList
  stages := [.ambientSample ⟨0, 1⟩, .exercise "ex".toList ⟨0, 1⟩,
    .ambientSample ⟨0, 1⟩]

/-- The S4 run: start from valve Specimen, echo the valve switches so
the valve state matches each stage, and feed Sample(100), Sample(1),
Sample(100). -/
def c3Run : Option StepResult :=
  match Test.create_and_start c3Config .specimen with
  | some (t, v, _) =>
    runSteps t v
      [.response .valveAmbient, .sample 100, .response .valveSpecimen,
       .sample 1, .response .valveAmbient, .sample 100]
  | none => none

/-- C3: the S4 run completes (the final step returns TestComplete), the
final fit-factor vector is `[100]`, and exactly one `ExerciseResult`
notification is emitted, carrying fit factor 100. -/
theorem claim_C3_one_exercise_run :
    (c3Run.map fun r => r.outcome) = some .testComplete ∧
    (c3Run.map fun r => r.test.exercise_ffs) = some [100] ∧
    (c3Run.map fun r => r.notifications.filter isExerciseResult) =
      some [.exerciseResult 0 0 100] := by
  refine ⟨by decide, by decide, by decide⟩

/-- An in-flight test for the C2 failing input: the last ambient stage
holds one sample of 100 (ambient average 100) and the running exercise
stage already holds one stored sample. -/
def c2Test : Test where
  config := c3Config
  device_id := 0
  current_stage := 1
  results := [⟨true, [], [100], ⟨0, 1⟩⟩, ⟨false, [], [1], ⟨0, 2⟩⟩]
  exercise_ffs := []
  exercises_completed := 0
  initial_commands := Option.none

/-- C2 (code-bug evidence): processing the sample `v = 1` emits a
LiveFF with fit factor `100 / max(1, 100/60) = 60` — the code floors the
denominator at `100.0/60.0 ≈ 1.667` — whereas the claimed minimum
measurable concentration `m = 60/(100·1) = 0.6` (which the code's own
`avg()` and the surrounding documentation use) yields
`100 / max(1, 0.6) = 100 ≠ 60`. -/
theorem claim_C2_live_ff_divergence :
    ((c2Test.process_sample 1 .specimen).map fun r =>
      r.notifications.filter isLiveFF) = some [.liveFF 0 0 2 60] ∧
    (60 : ℚ) = 100 / max 1 (100 / 60) ∧
    (100 : ℚ) = 100 / max 1 (60 / 100) ∧
    (60 : ℚ) ≠ 100 := by
  refine ⟨by decide, by decide, by decide, by decide⟩

/-! ## Claim C8: stage monotonicity invariants -/

/-- Well-formedness of one `StageResults`: neither count is exceeded,
and samples are present only once the purges are full. -/
def WFStage (r : StageResults) : Prop :=
  r.purges.length ≤ r.config.purge_count ∧
  r.samples.length ≤ r.config.sample_count ∧
  (r.samples ≠ [] → r.purges.length = r.config.purge_count)

instance (r : StageResults) : Decidable (WFStage r) := by
  unfold WFStage; infer_instance

/-- Well-formedness of the orchestrator's results list. -/
def WFResults (t : Test) : Prop :=
  t.results ≠ [] ∧ ∀ r ∈ t.results, WFStage r

instance (t : Test) : Decidable (WFResults t) := by
  unfold WFResults; infer_instance

/-- `r'` extends `r` append-only: purges and samples grow only at the
end, and the samples change only when the purges are full. -/
def stageExtends (r r' : StageResults) : Prop :=
  (∃ p, r'.purges = r.purges ++ p) ∧
  (∃ s, r'.samples = r.samples ++ s) ∧
  (r'.samples ≠ r.samples → r'.purges.length = r'.config.purge_count)

theorem stageExtends_refl (r : StageResults) : stageExtends r r :=
  ⟨⟨[], by simp⟩, ⟨[], by simp⟩, fun h => absurd rfl h⟩

theorem append_spec {r : StageResults} {value : ℚ} {ty : SampleType}
    {r' : StageResults} (hwf : WFStage r)
    (h : r.append value = some (ty, r')) :
    WFStage r' ∧ stageExtends r r' := by
  obtain ⟨hp, hs, hps⟩ := hwf
  rw [StageResults.append] at h
  split at h
  · rename_i hroom
    split at h
    · rename_i hpu
      simp only [Option.some.injEq, Prod.mk.injEq] at h
      obtain ⟨-, rfl⟩ := h
      refine ⟨⟨?_, ?_, ?_⟩, ⟨[value], rfl⟩, ⟨[], by simp⟩, ?_⟩
      · simp only [List.length_append, List.length_cons, List.length_nil]
        omega
      · exact hs
      · intro hne
        exfalso
        have := hps hne
        omega
      · intro hne
        exact absurd rfl hne
    · rename_i hpu
      simp only [Option.some.injEq, Prod.mk.injEq] at h
      obtain ⟨-, rfl⟩ := h
      have hpeq : r.purges.length = r.config.purge_count := by omega
      have hsroom : r.samples.length < r.config.sample_count := by
        rcases hroom with h1 | h1
        · omega
        · exact h1
      refine ⟨⟨hpeq.le, ?_, fun _ => hpeq⟩,
        ⟨[], by simp⟩, ⟨[value], rfl⟩, fun _ => hpeq⟩
      simp only [List.length_append, List.length_cons, List.length_nil]
      omega
  · exact absurd h (by simp)

theorem updateLast_spec {rs : List StageResults} {lastR r' : StageResults}
    (hall : ∀ r ∈ rs, WFStage r)
    (hlast : rs.getLast? = some lastR)
    (hwf' : WFStage r') (hext : stageExtends lastR r') :
    (rs.dropLast ++ [r'] ≠ []) ∧
    (∀ r ∈ rs.dropLast ++ [r'], WFStage r) ∧
    (rs.dropLast ++ [r']).length = rs.length ∧
    ∀ i r1 r2, rs.get? i = some r1 →
      (rs.dropLast ++ [r']).get? i = some r2 → stageExtends r1 r2 := by
  have hB : rs.dropLast ++ [lastR] = rs :=
    List.dropLast_append_getLast? lastR hlast
  refine ⟨by simp, ?_, ?_, ?_⟩
  · intro r hmem
    rcases List.mem_append.mp hmem with hmem | hmem
    · exact hall r (by rw [← hB]; exact List.mem_append.mpr (Or.inl hmem))
    · simp only [List.mem_singleton] at hmem
      subst hmem
      exact hwf'
  · have := congrArg List.length hB
    simp only [List.length_append, List.length_cons, List.length_nil] at this ⊢
    omega
  · intro i r1 r2 hr1 hr2
    rcases Nat.lt_trichotomy i rs.dropLast.length with hi | hi | hi
    · rw [← hB, List.get?_append hi] at hr1
      rw [List.get?_append hi] at hr2
      rw [hr1] at hr2
      cases hr2
      exact stageExtends_refl r1
    · have hgl : rs.get? rs.dropLast.length = some lastR := by
        have hc := List.get?_concat_length rs.dropLast lastR
        rwa [hB] at hc
      have hgr : (rs.dropLast ++ [r']).get? rs.dropLast.length = some r' :=
        List.get?_concat_length _ _
      rw [hi] at hr1 hr2
      rw [hgl] at hr1
      rw [hgr] at hr2
      cases hr1
      cases hr2
      exact hext
    · exfalso
      rw [List.get?_eq_none.mpr (by
        simp only [List.length_append, List.length_cons, List.length_nil]
        omega)] at hr2
      cases hr2

theorem takeInitialCommands_results (t : Test) :
    t.takeInitialCommands.1.results = t.results := by
  rw [Test.takeInitialCommands]
  cases t.initial_commands <;> rfl

theorem store_sample_spec {t : Test} {value : ℚ} {valve : ValveState}
    {oty : Option SampleType} {t1 : Test} {cmds : List Command}
    (hwf : WFResults t)
    (h : t.store_sample value valve = some (oty, t1, cmds)) :
    WFResults t1 ∧ t1.results.length = t.results.length ∧
      ∀ i r r', t.results.get? i = some r → t1.results.get? i = some r' →
        stageExtends r r' := by
  obtain ⟨hne, hall⟩ := hwf
  rw [Test.store_sample] at h
  cases hlast : t.results.getLast? with
  | none =>
    rw [hlast] at h
    exact absurd h (by simp)
  | some lastR =>
    rw [hlast] at h
    dsimp only at h
    have hlastWF : WFStage lastR := by
      refine hall lastR ?_
      rw [← List.dropLast_append_getLast? lastR hlast]
      simp
    cases valve with
    | awaitingAmbient =>
      dsimp only at h
      simp only [Option.some.injEq, Prod.mk.injEq] at h
      obtain ⟨-, rfl, -⟩ := h
      exact ⟨⟨hne, hall⟩, rfl,
        fun i r r' hr hr' => by rw [hr] at hr'; cases hr'; exact stageExtends_refl r⟩
    | awaitingSpecimen =>
      dsimp only at h
      cases happ : lastR.append value with
      | none => rw [happ] at h; exact absurd h (by simp)
      | some tyr =>
        obtain ⟨ty2, r'⟩ := tyr
        rw [happ] at h
        simp only [Option.some.injEq, Prod.mk.injEq] at h
        obtain ⟨-, rfl, -⟩ := h
        obtain ⟨hwf', hext⟩ := append_spec hlastWF happ
        obtain ⟨h1, h2, h3, h4⟩ := updateLast_spec hall hlast hwf' hext
        exact ⟨⟨h1, h2⟩, h3, h4⟩
    | ambient =>
      dsimp only at h
      split at h
      · cases happ : lastR.append value with
        | none => rw [happ] at h; exact absurd h (by simp)
        | some tyr =>
          obtain ⟨ty2, r'⟩ := tyr
          rw [happ] at h
          simp only [Option.some.injEq, Prod.mk.injEq] at h
          obtain ⟨-, rfl, -⟩ := h
          obtain ⟨hwf', hext⟩ := append_spec hlastWF happ
          obtain ⟨h1, h2, h3, h4⟩ := updateLast_spec hall hlast hwf' hext
          exact ⟨⟨h1, h2⟩, h3, h4⟩
      · exact absurd h (by simp)
    | specimen =>
      dsimp only at h
      split at h
      · cases happ : lastR.append value with
        | none => rw [happ] at h; exact absurd h (by simp)
        | some tyr =>
          obtain ⟨ty2, r'⟩ := tyr
          rw [happ] at h
          simp only [Option.some.injEq, Prod.mk.injEq] at h
          obtain ⟨-, rfl, -⟩ := h
          obtain ⟨hwf', hext⟩ := append_spec hlastWF happ
          obtain ⟨h1, h2, h3, h4⟩ := updateLast_spec hall hlast hwf' hext
          exact ⟨⟨h1, h2⟩, h3, h4⟩
      · exact absurd h (by simp)

theorem ffLoop_results (a : ℚ) (d : ℕ) :
    ∀ (l : List ℚ) (t : Test), (ffLoop a d l t).1.results = t.results := by
  intro l
  induction l with
  | nil => intro t; rfl
  | cons e rest ih =>
    intro t
    rw [ffLoop]
    exact ih _

theorem calculate_ffs_results {t t2 : Test} {notifs : List TestNotification}
    (h : t.calculate_ffs = some (t2, notifs)) : t2.results = t.results := by
  rw [Test.calculate_ffs] at h
  split at h
  · exact absurd h (by simp)
  · split at h
    · exact absurd h (by simp)
    · simp only [Option.some.injEq] at h
      have h1 := congrArg Prod.fst h
      simp only at h1
      rw [← h1]
      exact ffLoop_results _ _ _ _

theorem WFStage_fromStage (s : TestStage) : WFStage (StageResults.fromStage s) := by
  cases s <;> exact ⟨Nat.zero_le _, Nat.zero_le _, fun h => absurd rfl h⟩

/-- C8: a successful (non-panicking) `process_sample` call preserves
well-formedness — purges never exceed `purge_count`, samples never
exceed `sample_count`, samples only appear once purges are full — the
results list only grows, every pre-existing stage's purges and samples
are extended append-only with samples growing only once that stage's
purges are full, and `is_complete` holds exactly when both counts are
reached. -/
theorem claim_C8_stage_monotonicity (t : Test) (value : ℚ)
    (valve : ValveState) (res : StepResult) (hwf : WFResults t)
    (h : t.process_sample value valve = some res) :
    WFResults res.test ∧
    t.results.length ≤ res.test.results.length ∧
    (∀ i r r', t.results.get? i = some r →
      res.test.results.get? i = some r' → stageExtends r r') ∧
    (∀ r : StageResults, r.is_complete = true ↔
      (r.purges.length = r.config.purge_count ∧
       r.samples.length = r.config.sample_count)) := by
  have hcomplete : ∀ r : StageResults, r.is_complete = true ↔
      (r.purges.length = r.config.purge_count ∧
       r.samples.length = r.config.sample_count) := by
    intro r
    rw [StageResults.is_complete]
    simp
  rw [Test.process_sample] at h
  cases hlast0 : t.results.getLast? with
  | none => rw [hlast0] at h; exact absurd h (by simp)
  | some lastRes =>
    rw [hlast0] at h
    dsimp only at h
    split at h
    · exact absurd h (by simp)
    · have htake := takeInitialCommands_results t
      have hwf0 : WFResults t.takeInitialCommands.1 := by
        rw [WFResults, htake]
        exact hwf
      cases hstore : t.takeInitialCommands.1.store_sample value valve with
      | none => rw [hstore] at h; exact absurd h (by simp)
      | some stored =>
        obtain ⟨oty, t1, cmds1⟩ := stored
        rw [hstore] at h
        obtain ⟨hwf1, hlen1, hext1⟩ := store_sample_spec hwf0 hstore
        rw [htake] at hlen1 hext1
        cases oty with
        | none =>
          dsimp only at h
          simp only [Option.some.injEq] at h
          subst h
          exact ⟨hwf1, hlen1.ge, hext1, hcomplete⟩
        | some ty =>
          dsimp only at h
          cases hlast1 : t1.results.getLast? with
          | none =>
            exfalso
            have := (List.getLast?_isSome (l := t1.results)).mpr hwf1.1
            rw [hlast1] at this
            cases this
          | some stage_results =>
            rw [hlast1] at h
            dsimp only at h
            split at h
            · exact absurd h (by simp)
            · rename_i liveNotifs hlive
              split at h
              · -- stage complete: FF calculation, then finish or advance
                split at h
                · exact absurd h (by simp)
                · rename_i t2 ffNotifs hff
                  have ht2 : t2.results = t1.results := by
                    split at hff
                    · exact calculate_ffs_results hff
                    · simp only [Option.some.injEq, Prod.mk.injEq] at hff
                      rw [← hff.1]
                  have hwf2 : WFResults t2 := by
                    rw [WFResults, ht2]
                    exact hwf1
                  split at h
                  · -- last stage: TestComplete
                    simp only [Option.some.injEq] at h
                    subst h
                    refine ⟨hwf2, ?_, ?_, hcomplete⟩
                    · dsimp only
                      rw [ht2]
                      exact hlen1.ge
                    · intro i r r' hr hr'
                      dsimp only at hr'
                      rw [ht2] at hr'
                      exact hext1 i r r' hr hr'
                  · -- advance to the next stage
                    cases hget : t2.config.stages.get?
                        (t2.current_stage + 1) with
                    | none => rw [hget] at h; exact absurd h (by simp)
                    | some newStage =>
                      rw [hget] at h
                      dsimp only at h
                      have hresNew :
                          ∀ tb : Test,
                            tb.results =
                              t2.results ++ [StageResults.fromStage newStage] →
                            WFResults tb ∧
                            t.results.length ≤ tb.results.length ∧
                            (∀ i r r', t.results.get? i = some r →
                              tb.results.get? i = some r' →
                              stageExtends r r') := by
                        intro tb htb
                        refine ⟨⟨by simp [htb], ?_⟩, ?_, ?_⟩
                        · intro r hmem
                          rw [htb] at hmem
                          rcases List.mem_append.mp hmem with hmem | hmem
                          · rw [ht2] at hmem
                            exact hwf1.2 r hmem
                          · simp only [List.mem_singleton] at hmem
                            subst hmem
                            exact WFStage_fromStage newStage
                        · rw [htb]
                          simp only [List.length_append, List.length_cons,
                            List.length_nil, ht2]
                          omega
                        · intro i r r' hr hr'
                          have hi : i < t1.results.length := by
                            obtain ⟨hi0, -⟩ := List.get?_eq_some.mp hr
                            omega
                          rw [htb, ht2, List.get?_append hi] at hr'
                          exact hext1 i r r' hr hr'
                      split at h
                      · split at h
                        · simp only [Option.some.injEq] at h
                          subst h
                          exact ⟨(hresNew _ rfl).1, (hresNew _ rfl).2.1,
                            (hresNew _ rfl).2.2, hcomplete⟩
                        · simp only [Option.some.injEq] at h
                          subst h
                          exact ⟨(hresNew _ rfl).1, (hresNew _ rfl).2.1,
                            (hresNew _ rfl).2.2, hcomplete⟩
                      · simp only [Option.some.injEq] at h
                        subst h
                        exact ⟨(hresNew _ rfl).1, (hresNew _ rfl).2.1,
                          (hresNew _ rfl).2.2, hcomplete⟩
              · -- stage not complete
                simp only [Option.some.injEq] at h
                subst h
                exact ⟨hwf1, hlen1.ge, hext1, hcomplete⟩

/-- A minimal in-flight state for the C8 witness: the first ambient
stage of the S4 config, no samples yet. -/
def w8Test : Test where
  config := c3Config
  device_id := 0
  current_stage := 0
  results := [⟨true, [], [], ⟨0, 1⟩⟩]
  exercise_ffs := []
  exercises_completed := 0
  initial_commands := Option.none

/-- The step result of feeding `w8Test` the sample 100 with the valve
on ambient: the ambient stage completes and the exercise stage is
pushed. -/
def w8Res : StepResult where
  test :=
    { config := c3Config
      device_id := 0
      current_stage := 1
      results := [⟨true, [], [100], ⟨0, 1⟩⟩, ⟨false, [], [], ⟨0, 1⟩⟩]
      exercise_ffs := []
      exercises_completed := 0
      initial_commands := Option.none }
  valve := .awaitingSpecimen
  outcome := .none
  notifications := [.sample ⟨0, 0, 100, .ambientSample⟩]
  commands := [Command.valveSpecimen]

/-- C8 witness: the invariant theorem applied to a concrete step. -/
theorem claim_C8_witness :
    WFResults w8Res.test ∧ w8Test.results.length ≤ w8Res.test.results.length :=
  ⟨(claim_C8_stage_monotonicity w8Test 100 .ambient w8Res (by decide)
      (by decide)).1,
   (claim_C8_stage_monotonicity w8Test 100 .ambient w8Res (by decide)
      (by decide)).2.1⟩

end P8020
